import Mathlib

/-!
Shallow embedding of the expense-tracker core (`src/main.py`): the record
store (`load_expenses` / `save_expenses`), the three validators, the
repository operations performed by the add / manage pages, and the
aggregations computed by the view / analytics pages.

Modelling conventions:
* Python strings are Lean `String`s (the ASCII fragment of `str` methods
  such as `isalpha`, `capitalize`, `lower`, `upper` is modelled exactly).
* The floats produced by the amount widget are modelled as `ℚ`;
  Python `int(x)` is truncation toward zero (`pyTrunc`).
* The JSON file behind the store is modelled by `StoreState`: the file can
  be absent, hold text that does not parse as JSON, or hold a parse tree
  `j : Json`.  Identifying a parseable document with its parse tree models
  the fact that `json.dump` followed by `json.load` reproduces the dumped
  value for the values this program writes.
* Exceptions and UI messages are explicit values: each page-level
  operation returns the error message it would display (if any) together
  with the list of collections passed to `save_expenses`, in order.
-/

namespace ExpenseTracker

/-- An expense record as persisted by `add_expense_page` in `main.py`:
`{"Category": ..., "Amount": int, "Description": ..., "Date": str(date)}`. -/
structure Expense where
  Category : String
  Amount : Int
  Description : String
  Date : String
deriving DecidableEq, Repr

/-- JSON values, the results of Python's `json.load` (the fragment this
program can ever store or read back). -/
inductive Json where
  | str : String → Json
  | int : Int → Json
  | arr : List Json → Json
  | obj : List (String × Json) → Json

/-- Serialization of one expense record, following the dict literal built
in `add_expense_page`. -/
def encodeExpense (e : Expense) : Json :=
  .obj [("Category", .str e.Category), ("Amount", .int e.Amount),
        ("Description", .str e.Description), ("Date", .str e.Date)]

/-- Partial inverse of `encodeExpense`. -/
def decodeExpense : Json → Option Expense
  | .obj [("Category", .str c), ("Amount", .int a),
          ("Description", .str d), ("Date", .str dt)] => some ⟨c, a, d, dt⟩
  | _ => none

/-- A collection is serialized as the JSON array of its records. -/
def encodeCollection (es : List Expense) : Json :=
  .arr (es.map encodeExpense)

/-- Decode a list of JSON values as expense records, failing if any entry
fails. -/
def decodeExpenseList : List Json → Option (List Expense)
  | [] => some []
  | j :: js =>
    match decodeExpense j, decodeExpenseList js with
    | some e, some es => some (e :: es)
    | _, _ => none

/-- Partial inverse of `encodeCollection`. -/
def decodeCollection : Json → Option (List Expense)
  | .arr js => decodeExpenseList js
  | _ => none

/-- State of the backing file `./data/expenses.json`. -/
inductive StoreState where
  | absent : StoreState
  | invalidJson : StoreState
  | validJson : Json → StoreState

/-- Embedding of `load_expenses` in `main.py`: a missing file returns `[]`
(the `os.path.exists` guard), unparseable content returns `[]` (the
`json.JSONDecodeError` handler), and a parseable document is returned
as parsed.  The function is total: no exception escapes to the caller. -/
def load_expenses : StoreState → Json
  | .absent => .arr []
  | .invalidJson => .arr []
  | .validJson j => j

/-- Embedding of `save_expenses` in `main.py`: `json.dump` fully overwrites
the file with the serialized collection, regardless of the prior state
(the prior state is an explicit argument here because the file system is
explicit in the embedding). -/
def save_expenses (expenses : List Expense) (_prior : StoreState) : StoreState :=
  .validJson (encodeCollection expenses)

/-- Python `str.isalpha` (ASCII fragment): true on non-empty strings all of
whose characters are letters. -/
def pyIsAlpha (s : String) : Bool :=
  decide (s ≠ "") && s.data.all Char.isAlpha

/-- Embedding of `validate_category` in `main.py`. -/
def validate_category (category : String) : Bool × String :=
  if category = "" then (false, "Category cannot be empty.")
  else if pyIsAlpha category = false then (false, "Category must contain only letters.")
  else (true, "")

/-- Embedding of `validate_amount` in `main.py`.  The argument is `none`
for a Python value that is not a number, in which case the comparison
`amount <= 0` raises `TypeError`, which the handler turns into the
non-numeric message. -/
def validate_amount : Option ℚ → Bool × String
  | some amount =>
    if amount ≤ 0 then (false, "Amount must be greater than 0.") else (true, "")
  | none => (false, "Amount must be a valid number.")

/-- Embedding of `validate_description` in `main.py`. -/
def validate_description (description : String) : Bool × String :=
  if description = "" then (false, "Description cannot be empty.")
  else if description.length < 5 then (false, "Description must be at least 5 characters.")
  else (true, "")

/-- Python `int(x)` on a float: truncation toward zero. -/
def pyTrunc (q : ℚ) : Int :=
  if 0 ≤ q then ⌊q⌋ else ⌈q⌉

/-- Python `str.capitalize` (ASCII fragment): first character uppercased,
all remaining characters lowercased. -/
def pyCapitalize (s : String) : String :=
  match s.data with
  | [] => ""
  | c :: cs => String.mk (c.toUpper :: cs.map Char.toLower)

/-- A `datetime.date` value as produced by the date widget. -/
structure PyDate where
  year : Nat
  month : Nat
  day : Nat
deriving DecidableEq, Repr

/-- Zero-padded decimal rendering, as used by `date.__str__`. -/
def padNum (width n : Nat) : String :=
  let s := toString n
  String.mk (List.replicate (width - s.length) '0') ++ s

/-- Python `str(date)`: the ISO-8601 rendering `YYYY-MM-DD`. -/
def PyDate.isoString (d : PyDate) : String :=
  padNum 4 d.year ++ "-" ++ padNum 2 d.month ++ "-" ++ padNum 2 d.day

/-- Outcome of the submit handler of `add_expense_page`: the error message
displayed via `st.error` (if any), and the successive arguments passed to
`save_expenses`. -/
structure AddResult where
  errorMsg : Option String
  savedWrites : List (List Expense)
deriving DecidableEq, Repr

/-- Embedding of the submit handler of `add_expense_page` in `main.py`:
all three validators are evaluated, the first failure (category, then
amount, then description) is reported with no write; on success the
loaded collection with the normalized record appended is saved once. -/
def add_expense (loaded : List Expense) (category : String) (amount : ℚ)
    (description : String) (d : PyDate) : AddResult :=
  let vc := validate_category category
  let va := validate_amount (some amount)
  let vd := validate_description description
  if vc.1 = false then { errorMsg := some vc.2, savedWrites := [] }
  else if va.1 = false then { errorMsg := some va.2, savedWrites := [] }
  else if vd.1 = false then { errorMsg := some vd.2, savedWrites := [] }
  else
    { errorMsg := none,
      savedWrites := [loaded ++ [{ Category := pyCapitalize category,
                                   Amount := pyTrunc amount,
                                   Description := description,
                                   Date := d.isoString }]] }

/-- Embedding of the delete handler of `manage_expenses_page` in `main.py`:
`expenses.pop(i); save_expenses(expenses)`.  Python `list.pop` interprets
a negative index `i` as `i + len`, and raises `IndexError` when the
adjusted index is out of range; `none` models that exception (raised
before any save, so the persisted collection is unchanged), `some l`
models the collection saved. -/
def delete_at (loaded : List Expense) (i : Int) : Option (List Expense) :=
  let n : Int := loaded.length
  let j : Int := if i < 0 then i + n else i
  if 0 ≤ j ∧ j < n then some (loaded.take j.toNat ++ loaded.drop (j.toNat + 1))
  else none

/-- Lexicographic comparison of strings by character codepoints, the key
order used by `pandas` when grouping and sorting by a string column. -/
def charsLe : List Char → List Char → Bool
  | [], _ => true
  | _ :: _, [] => false
  | c :: cs, d :: ds =>
    if c.toNat < d.toNat then true
    else if d.toNat < c.toNat then false
    else charsLe cs ds

/-- String comparison used for sorted group keys. -/
def strLe (a b : String) : Bool :=
  charsLe a.data b.data

/-- Insertion step of a stable insertion sort. -/
def insertSorted (le : α → α → Bool) (x : α) : List α → List α
  | [] => [x]
  | y :: ys => if le x y then x :: y :: ys else y :: insertSorted le x ys

/-- Stable sort by a boolean comparison, modelling the sorts performed by
`pandas` (`groupby` key order, `sort_values`). -/
def sortBy (le : α → α → Bool) : List α → List α
  | [] => []
  | x :: xs => insertSorted le x (sortBy le xs)

/-- First-occurrence deduplication (auxiliary). -/
def dedupAux (seen : List String) : List String → List String
  | [] => []
  | c :: cs =>
    if seen.contains c then dedupAux seen cs
    else c :: dedupAux (c :: seen) cs

/-- The distinct values of a string column, in first-occurrence order. -/
def dedupFirst (l : List String) : List String :=
  dedupAux [] l

/-- Embedding of `df['Amount'].sum()` over the loaded collection
(`view_all_expenses_page`, `analytics_page`). -/
def total (es : List Expense) : Int :=
  (es.map (fun e => e.Amount)).sum

/-- Embedding of `len(df)` over the loaded collection. -/
def count (es : List Expense) : Nat :=
  es.length

/-- One row of the per-category table of `analytics_page`
(`agg(['sum', 'count', 'mean'])`). -/
structure CatStats where
  category : String
  sum : Int
  size : Nat
  avg : ℚ
deriving DecidableEq, Repr

/-- Embedding of the category analysis of `analytics_page`:
`df.groupby('Category')['Amount'].agg(['sum', 'count', 'mean'])` (group
keys in ascending order) followed by `.sort_values('sum', ascending=False)`. -/
def group_by_category (es : List Expense) : List CatStats :=
  let cats := sortBy strLe (dedupFirst (es.map (fun e => e.Category)))
  let stats := cats.map (fun c =>
    let amts := (es.filter (fun e => decide (e.Category = c))).map (fun e => e.Amount)
    { category := c, sum := amts.sum, size := amts.length,
      avg := (amts.sum : ℚ) / (amts.length : ℚ) })
  sortBy (fun a b => decide (b.sum ≤ a.sum)) stats

/-- Calendar month of an ISO date string, as computed by
`pd.to_datetime` + `.dt.to_period('M')` in `analytics_page`: the
`YYYY-MM` part. -/
def pyMonth (isoDate : String) : String :=
  String.mk (isoDate.data.take 7)

/-- Embedding of the monthly trend of `analytics_page`:
`groupby('Month')['Amount'].sum()`, months in chronological (ascending
key) order. -/
def group_by_month (es : List Expense) : List (String × Int) :=
  let months := sortBy strLe (dedupFirst (es.map (fun e => pyMonth e.Date)))
  months.map (fun m =>
    (m, ((es.filter (fun e => decide (pyMonth e.Date = m))).map (fun e => e.Amount)).sum))

/-- The concrete three-record collection used by the aggregation example. -/
def exampleCollection : List Expense :=
  [{ Category := "Food", Amount := 100, Description := "lunch today", Date := "2024-01-01" },
   { Category := "Food", Amount := 50, Description := "snack later", Date := "2024-01-02" },
   { Category := "Transport", Amount := 30, Description := "bus fare here", Date := "2024-01-01" }]

/-! Helper lemmas about characters and strings. -/

theorem char_toNat_ofNat {n : Nat} (h : n < 55296) : (Char.ofNat n).toNat = n := by
  have hv : n.isValidChar := Or.inl h
  simp only [Char.ofNat, hv, dite_true, Char.ofNatAux, Char.toNat]
  rfl

theorem isAlpha_iff_toNat (c : Char) :
    c.isAlpha = true ↔ (65 ≤ c.toNat ∧ c.toNat ≤ 90) ∨ (97 ≤ c.toNat ∧ c.toNat ≤ 122) := by
  simp only [Char.isAlpha, Char.isUpper, Char.isLower, Bool.or_eq_true, Bool.and_eq_true,
    decide_eq_true_eq, ge_iff_le]
  constructor
  · rintro (⟨h1, h2⟩ | ⟨h1, h2⟩)
    · exact Or.inl ⟨h1, h2⟩
    · exact Or.inr ⟨h1, h2⟩
  · rintro (⟨h1, h2⟩ | ⟨h1, h2⟩)
    · exact Or.inl ⟨h1, h2⟩
    · exact Or.inr ⟨h1, h2⟩

theorem toUpper_isAlpha (c : Char) (h : c.isAlpha = true) : c.toUpper.isAlpha = true := by
  rw [isAlpha_iff_toNat] at h ⊢
  unfold Char.toUpper
  by_cases hc : 97 ≤ c.toNat ∧ c.toNat ≤ 122
  · simp only [ge_iff_le, hc, and_self, if_true]
    rw [char_toNat_ofNat (by omega)]
    omega
  · simp only [ge_iff_le, hc, if_false]
    omega

theorem toLower_isAlpha (c : Char) (h : c.isAlpha = true) : c.toLower.isAlpha = true := by
  rw [isAlpha_iff_toNat] at h ⊢
  unfold Char.toLower
  by_cases hc : 65 ≤ c.toNat ∧ c.toNat ≤ 90
  · simp only [ge_iff_le, hc, and_self, if_true]
    rw [char_toNat_ofNat (by omega)]
    omega
  · simp only [ge_iff_le, hc, if_false]
    omega

theorem pyIsAlpha_iff (s : String) :
    pyIsAlpha s = true ↔ s ≠ "" ∧ ∀ c ∈ s.data, c.isAlpha = true := by
  simp [pyIsAlpha, List.all_eq_true]

/-- C7: `validate_category` fails with the empty-input message exactly on
the empty string, fails with the format message whenever the (non-empty)
string has a non-alphabetic character, and passes exactly on non-empty
all-alphabetic strings. -/
theorem validate_category_spec (s : String) :
    (validate_category s = (false, "Category cannot be empty.") ↔ s = "") ∧
    (s ≠ "" → ¬(∀ c ∈ s.data, c.isAlpha = true) →
      validate_category s = (false, "Category must contain only letters.")) ∧
    ((validate_category s).1 = true ↔ s ≠ "" ∧ ∀ c ∈ s.data, c.isAlpha = true) := by
  by_cases hs : s = ""
  · subst hs
    exact ⟨by simp [validate_category], fun h _ => absurd rfl h, by simp [validate_category]⟩
  · by_cases ha : pyIsAlpha s = true
    · obtain ⟨-, hall⟩ := (pyIsAlpha_iff s).1 ha
      have hv : validate_category s = (true, "") := by simp [validate_category, hs, ha]
      refine ⟨?_, fun _ hna => absurd hall hna, ?_⟩
      · rw [hv]
        simp [hs]
      · rw [hv]
        simpa [hs] using hall
    · simp only [Bool.not_eq_true] at ha
      have hv : validate_category s = (false, "Category must contain only letters.") := by
        simp [validate_category, hs, ha]
      refine ⟨?_, fun _ _ => hv, ?_⟩
      · rw [hv]
        constructor
        · intro h
          exact absurd (congrArg Prod.snd h) (by decide)
        · intro h
          exact absurd h hs
      · rw [hv]
        constructor
        · intro h
          exact absurd h (by decide)
        · rintro ⟨-, hall⟩
          have hpa := (pyIsAlpha_iff s).2 ⟨hs, hall⟩
          rw [ha] at hpa
          exact absurd hpa (by decide)

/-- C7 witness: at `"ab3"`, which is non-empty and contains the
non-alphabetic character `'3'`, the format error is produced. -/
theorem validate_category_spec_witness :
    validate_category "ab3" = (false, "Category must contain only letters.") :=
  (validate_category_spec "ab3").2.1 (by decide) (by decide)

/-- C8: `validate_amount` fails with the range message on every numeric
input `<= 0`, passes on every positive numeric input, and fails with the
distinct non-numeric message (rather than raising) on any input that is
not a number. -/
theorem validate_amount_spec (q : ℚ) :
    (q ≤ 0 → validate_amount (some q) = (false, "Amount must be greater than 0.")) ∧
    (0 < q → validate_amount (some q) = (true, "")) ∧
    validate_amount none = (false, "Amount must be a valid number.") := by
  refine ⟨fun h => ?_, fun h => ?_, rfl⟩
  · simp [validate_amount, h]
  · simp [validate_amount, not_le.2 h]

/-- C8 witness: `-1` is rejected with the range message and `1` is
accepted. -/
theorem validate_amount_spec_witness :
    validate_amount (some (-1 : ℚ)) = (false, "Amount must be greater than 0.") ∧
    validate_amount (some (1 : ℚ)) = (true, "") :=
  ⟨(validate_amount_spec (-1)).1 (by norm_num), (validate_amount_spec 1).2.1 (by norm_num)⟩

/-- C9: `validate_description` fails with the empty-input message on the
empty string, fails with the too-short message on non-empty strings of
length below five, and passes exactly when the length is at least five. -/
theorem validate_description_spec (s : String) :
    (s = "" → validate_description s = (false, "Description cannot be empty.")) ∧
    (s ≠ "" → s.length < 5 → validate_description s = (false, "Description must be at least 5 characters.")) ∧
    ((validate_description s).1 = true ↔ 5 ≤ s.length) := by
  refine ⟨fun h => ?_, fun hne hlt => ?_, ?_⟩
  · subst h
    rfl
  · simp [validate_description, hne, hlt]
  · by_cases hs : s = ""
    · subst hs
      exact iff_of_false (by decide) (by decide)
    · by_cases hl : s.length < 5
      · have hv : validate_description s = (false, "Description must be at least 5 characters.") := by
          simp [validate_description, hs, hl]
        rw [hv]
        exact iff_of_false (by decide) (by omega)
      · have hv : validate_description s = (true, "") := by
          simp [validate_description, hs, hl]
        rw [hv]
        exact iff_of_true rfl (by omega)

/-- C9 witness: `"abc"` (length three) is rejected as too short and
`"abcdef"` (length six) is accepted. -/
theorem validate_description_spec_witness :
    validate_description "abc" = (false, "Description must be at least 5 characters.") ∧
    (validate_description "abcdef").1 = true :=
  ⟨(validate_description_spec "abc").2.1 (by decide) (by decide),
   (validate_description_spec "abcdef").2.2.2 (by decide)⟩

theorem decodeExpense_encodeExpense (e : Expense) :
    decodeExpense (encodeExpense e) = some e := rfl

theorem decodeExpenseList_map_encode (l : List Expense) :
    decodeExpenseList (l.map encodeExpense) = some l := by
  induction l with
  | nil => rfl
  | cons e es ih =>
    simp [List.map_cons, decodeExpenseList, decodeExpense_encodeExpense, ih]

/-- C3: saving any well-formed collection (the empty one included) and
loading again returns exactly that collection: the loaded document is the
serialization of `c`, and deserialization recovers `c` itself. -/
theorem save_load_round_trip (c : List Expense) (st : StoreState) :
    load_expenses (save_expenses c st) = encodeCollection c ∧
    decodeCollection (encodeCollection c) = some c :=
  ⟨rfl, decodeExpenseList_map_encode c⟩

/-- C4: on every store state that does not hold a parseable document
(missing file, or content that is not well-formed JSON), `load_expenses`
returns the empty collection; it is a total function, so no exception
reaches the caller. -/
theorem load_expenses_recovery (st : StoreState) (h : ∀ j, st ≠ .validJson j) :
    load_expenses st = Json.arr [] := by
  cases st with
  | absent => rfl
  | invalidJson => rfl
  | validJson j => exact absurd rfl (h j)

/-- C4 witness: the missing-file state and the unparseable-content state
both load as the empty collection. -/
theorem load_expenses_recovery_witness :
    load_expenses .absent = Json.arr [] ∧ load_expenses .invalidJson = Json.arr [] :=
  ⟨load_expenses_recovery .absent (fun _ h => StoreState.noConfusion h),
   load_expenses_recovery .invalidJson (fun _ h => StoreState.noConfusion h)⟩

/-! Helper lemmas about the validators and the add operation. -/

theorem validate_category_true_iff (s : String) :
    (validate_category s).1 = true ↔ s ≠ "" ∧ ∀ c ∈ s.data, c.isAlpha = true := by
  unfold validate_category
  by_cases hs : s = ""
  · simp [hs]
  · by_cases ha : pyIsAlpha s = true
    · simpa [hs, ha] using ((pyIsAlpha_iff s).1 ha).2
    · simp only [Bool.not_eq_true] at ha
      rw [if_neg hs, if_pos ha]
      constructor
      · intro h
        exact absurd h (by decide)
      · rintro ⟨hne, hall⟩
        have hpa := (pyIsAlpha_iff s).2 ⟨hne, hall⟩
        rw [ha] at hpa
        exact absurd hpa (by decide)

theorem validate_amount_true_iff (q : ℚ) :
    (validate_amount (some q)).1 = true ↔ 0 < q := by
  unfold validate_amount
  by_cases h : q ≤ 0
  · simp [h]
  · simp [h, lt_of_not_le h]

theorem add_expense_success (loaded : List Expense) (cat : String) (a : ℚ)
    (desc : String) (d : PyDate)
    (hc : (validate_category cat).1 = true)
    (ha : (validate_amount (some a)).1 = true)
    (hd : (validate_description desc).1 = true) :
    add_expense loaded cat a desc d =
      { errorMsg := none,
        savedWrites := [loaded ++ [{ Category := pyCapitalize cat,
                                     Amount := pyTrunc a,
                                     Description := desc,
                                     Date := d.isoString }]] } := by
  unfold add_expense
  simp [hc, ha, hd]

theorem pyCapitalize_ne_empty (s : String) (hs : s ≠ "") : pyCapitalize s ≠ "" := by
  unfold pyCapitalize
  match hdata : s.data with
  | [] => exact absurd (by cases s with | mk d => cases d with | nil => rfl | cons c cs => simp at hdata) hs
  | c :: cs =>
    intro h
    have := congrArg String.data h
    simp at this

theorem pyCapitalize_alpha (s : String) (hs : s ≠ "")
    (hall : ∀ c ∈ s.data, c.isAlpha = true) :
    ∀ c ∈ (pyCapitalize s).data, c.isAlpha = true := by
  unfold pyCapitalize
  match hdata : s.data with
  | [] => exact absurd (by cases s with | mk d => cases d with | nil => rfl | cons c cs => simp at hdata) hs
  | c :: cs =>
    intro x hx
    simp only [String.data] at hx
    rcases List.mem_cons.1 hx with hx | hx
    · subst hx
      exact toUpper_isAlpha c (hall c (hdata ▸ List.mem_cons_self c cs))
    · obtain ⟨y, hy, rfl⟩ := List.mem_map.1 hx
      exact toLower_isAlpha y (hall y (hdata ▸ List.mem_cons_of_mem c hy))

/-- C5: on inputs passing all three validators, the add operation appends
exactly one record at the tail — category capitalized, amount truncated to
an integer, description unchanged, date rendered as an ISO-8601 string —
leaves the previously loaded records unchanged and in order, and performs
exactly one save of the full resulting collection. -/
theorem add_valid_appends_normalized (loaded : List Expense) (cat : String) (a : ℚ)
    (desc : String) (d : PyDate)
    (hc : (validate_category cat).1 = true)
    (ha : (validate_amount (some a)).1 = true)
    (hd : (validate_description desc).1 = true) :
    add_expense loaded cat a desc d =
      { errorMsg := none,
        savedWrites := [loaded ++ [{ Category := pyCapitalize cat,
                                     Amount := pyTrunc a,
                                     Description := desc,
                                     Date := d.isoString }]] } :=
  add_expense_success loaded cat a desc d hc ha hd

/-- C5 witness: adding `("transport", 3, "bus fare here", 2024-01-02)` to a
one-record collection saves, once, the old record followed by the new
normalized record. -/
theorem add_valid_appends_normalized_witness :
    add_expense [{ Category := "Rent", Amount := 500, Description := "april rent", Date := "2024-03-31" }]
        "transport" 3 "bus fare here" ⟨2024, 1, 2⟩ =
      { errorMsg := none,
        savedWrites := [[{ Category := "Rent", Amount := 500, Description := "april rent", Date := "2024-03-31" },
                         { Category := "Transport", Amount := 3, Description := "bus fare here", Date := "2024-01-02" }]] } := by
  have h := add_valid_appends_normalized
    [{ Category := "Rent", Amount := 500, Description := "april rent", Date := "2024-03-31" }]
    "transport" 3 "bus fare here" ⟨2024, 1, 2⟩ (by decide) (by decide) (by decide)
  rw [h]
  decide

/-- C6: on inputs where at least one validator fails, the add operation
performs no save at all and reports exactly the message of the first
failing validator in the order category, amount, description; the failure
is a returned message, not an exception (`add_expense` is total). -/
theorem add_invalid_reports_first (loaded : List Expense) (cat : String) (a : ℚ)
    (desc : String) (d : PyDate)
    (h : ¬((validate_category cat).1 = true ∧ (validate_amount (some a)).1 = true ∧
           (validate_description desc).1 = true)) :
    (add_expense loaded cat a desc d).savedWrites = [] ∧
    (add_expense loaded cat a desc d).errorMsg =
      some (if (validate_category cat).1 = false then (validate_category cat).2
            else if (validate_amount (some a)).1 = false then (validate_amount (some a)).2
            else (validate_description desc).2) := by
  unfold add_expense
  by_cases hc : (validate_category cat).1 = false
  · simp [hc]
  · simp only [Bool.not_eq_false] at hc
    by_cases ha : (validate_amount (some a)).1 = false
    · simp [hc, ha]
    · simp only [Bool.not_eq_false] at ha
      by_cases hd : (validate_description desc).1 = false
      · simp [hc, ha, hd]
      · simp only [Bool.not_eq_false] at hd
        exact absurd ⟨hc, ha, hd⟩ h

/-- C6 witness: with a valid category and amount but the four-character
description `"abc"`, nothing is saved and the description error is the one
reported. -/
theorem add_invalid_reports_first_witness :
    (add_expense [] "Food" 3 "abc" ⟨2024, 1, 1⟩).savedWrites = [] ∧
    (add_expense [] "Food" 3 "abc" ⟨2024, 1, 1⟩).errorMsg =
      some "Description must be at least 5 characters." := by
  have h := add_invalid_reports_first [] "Food" 3 "abc" ⟨2024, 1, 1⟩ (by decide)
  refine ⟨h.1, ?_⟩
  rw [h.2]
  decide

/-- C1 counterexample: the amount `1/2` passes `validate_amount`, so the
record is admitted and persisted — but with `Amount = int(0.5) = 0`, which
`validate_amount` rejects.  The persisted record therefore does not
satisfy all three validators, contradicting the claim in exactly the
fractional case it singles out. -/
theorem admitted_fractional_amount_violates_validator :
    (add_expense [] "Food" (1/2 : ℚ) "lunch today" ⟨2024, 1, 1⟩).errorMsg = none ∧
    (add_expense [] "Food" (1/2 : ℚ) "lunch today" ⟨2024, 1, 1⟩).savedWrites =
      [[{ Category := "Food", Amount := 0, Description := "lunch today", Date := "2024-01-01" }]] ∧
    (validate_amount (some ((0 : Int) : ℚ))).1 = false := by
  have hv : (validate_amount (some (1/2 : ℚ))).1 = true := by
    rw [validate_amount_true_iff]
    norm_num
  have h := add_expense_success [] "Food" (1/2 : ℚ) "lunch today" ⟨2024, 1, 1⟩
    (by decide) hv (by decide)
  have htr : pyTrunc (1/2 : ℚ) = 0 := by
    unfold pyTrunc
    norm_num
  rw [h, htr]
  refine ⟨rfl, by decide, by decide⟩

/-- C1 amended: every record admitted through add satisfies the category
and description validators, but its amount satisfies `validate_amount` if
and only if the submitted amount was at least 1; a submitted amount
strictly between 0 and 1 passes validation yet is persisted as `0`, which
the amount validator rejects. -/
theorem admitted_record_validators (loaded : List Expense) (cat : String) (a : ℚ)
    (desc : String) (d : PyDate)
    (hc : (validate_category cat).1 = true)
    (ha : (validate_amount (some a)).1 = true)
    (hd : (validate_description desc).1 = true) :
    (add_expense loaded cat a desc d).savedWrites =
      [loaded ++ [{ Category := pyCapitalize cat, Amount := pyTrunc a,
                    Description := desc, Date := d.isoString }]] ∧
    (validate_category (pyCapitalize cat)).1 = true ∧
    (validate_description desc).1 = true ∧
    ((validate_amount (some ((pyTrunc a : Int) : ℚ))).1 = true ↔ 1 ≤ a) := by
  have h := add_expense_success loaded cat a desc d hc ha hd
  have hpos : 0 < a := (validate_amount_true_iff a).1 ha
  have hfloor : pyTrunc a = ⌊a⌋ := if_pos (le_of_lt hpos)
  refine ⟨by rw [h], ?_, hd, ?_⟩
  · obtain ⟨hne, hall⟩ := (validate_category_true_iff cat).1 hc
    exact (validate_category_true_iff _).2
      ⟨pyCapitalize_ne_empty cat hne, pyCapitalize_alpha cat hne hall⟩
  · rw [hfloor, validate_amount_true_iff, Int.cast_pos, Int.lt_iff_add_one_le, zero_add,
      Int.le_floor, Int.cast_one]

/-- C1 amended witness: adding `("Food", 2, "lunch today", 2024-01-01)`
persists a record whose category, description and amount all satisfy
their validators (`2 ≥ 1`). -/
theorem admitted_record_validators_witness :
    (add_expense [] "Food" (2 : ℚ) "lunch today" ⟨2024, 1, 1⟩).savedWrites =
      [[{ Category := "Food", Amount := 2, Description := "lunch today", Date := "2024-01-01" }]] ∧
    (validate_category "Food").1 = true ∧
    (validate_description "lunch today").1 = true ∧
    ((validate_amount (some ((2 : Int) : ℚ))).1 = true ↔ 1 ≤ (2 : ℚ)) := by
  have h := admitted_record_validators [] "Food" (2 : ℚ) "lunch today" ⟨2024, 1, 1⟩
    (by decide) (by decide) (by decide)
  have e1 : pyCapitalize "Food" = "Food" := by decide
  have e2 : pyTrunc (2 : ℚ) = 2 := by decide
  have e3 : (PyDate.mk 2024 1 1).isoString = "2024-01-01" := by decide
  rw [e1, e2, e3] at h
  exact h

/-- C2 counterexample: on a one-record collection, `delete_at` at index
`-1` does not fail with IndexError as the claim requires for every
negative index — Python `list.pop` interprets `-1` as the last position
and deletes the record. -/
theorem delete_at_negative_index_succeeds :
    delete_at [{ Category := "Food", Amount := 100, Description := "lunch today", Date := "2024-01-01" }]
      (-1) = some [] := by decide

/-- C2 amended: `delete_at i` on a collection of size `N` fails with
IndexError (no save happens, so the persisted collection is unchanged) if
and only if `i < -N` or `i ≥ N` — a negative `i` with `-N ≤ i < 0` counts
from the end; for `0 ≤ i < N` it removes exactly the element at zero-based
load-order position `i`, reduces the size to `N - 1`, keeps all other
elements in relative order, and saves the resulting collection. -/
theorem delete_at_spec (l : List Expense) (i : Int) :
    (delete_at l i = none ↔ (i < -(l.length : Int) ∨ (l.length : Int) ≤ i)) ∧
    (0 ≤ i → i < (l.length : Int) →
      delete_at l i = some (l.eraseIdx i.toNat) ∧
      (l.eraseIdx i.toNat).length + 1 = l.length) := by
  constructor
  · have hnone : delete_at l i = none ↔
        ¬(0 ≤ (if i < 0 then i + (l.length : Int) else i) ∧
          (if i < 0 then i + (l.length : Int) else i) < (l.length : Int)) := by
      simp only [delete_at]
      by_cases hc : 0 ≤ (if i < 0 then i + (l.length : Int) else i) ∧
          (if i < 0 then i + (l.length : Int) else i) < (l.length : Int)
      · simp [hc]
      · simp [hc]
    rw [hnone]
    by_cases hi : i < 0
    · simp only [hi, if_true]
      omega
    · simp only [hi, if_false]
      omega
  · intro h1 h2
    have hni : ¬i < 0 := not_lt.2 h1
    have hnat : i.toNat < l.length := by omega
    have hcond : 0 ≤ (if i < 0 then i + (l.length : Int) else i) ∧
        (if i < 0 then i + (l.length : Int) else i) < (l.length : Int) := by
      rw [if_neg hni]
      exact ⟨h1, h2⟩
    constructor
    · simp only [delete_at]
      rw [if_pos hcond, if_neg hni, List.eraseIdx_eq_take_drop_succ]
    · rw [List.length_eraseIdx_of_lt hnat]
      omega

/-- C2 amended witness: deleting position `1` from a three-record
collection removes exactly the middle record and shrinks the size from
three to two. -/
theorem delete_at_spec_witness :
    delete_at [{ Category := "Food", Amount := 100, Description := "lunch today", Date := "2024-01-01" },
               { Category := "Food", Amount := 50, Description := "snack later", Date := "2024-01-02" },
               { Category := "Transport", Amount := 30, Description := "bus fare here", Date := "2024-01-01" }]
        1 =
      some ([{ Category := "Food", Amount := 100, Description := "lunch today", Date := "2024-01-01" },
             { Category := "Food", Amount := 50, Description := "snack later", Date := "2024-01-02" },
             { Category := "Transport", Amount := 30, Description := "bus fare here", Date := "2024-01-01" }].eraseIdx
        (1 : Int).toNat) ∧
    (([{ Category := "Food", Amount := 100, Description := "lunch today", Date := "2024-01-01" },
       { Category := "Food", Amount := 50, Description := "snack later", Date := "2024-01-02" },
       { Category := "Transport", Amount := 30, Description := "bus fare here", Date := "2024-01-01" }] :
        List Expense).eraseIdx (1 : Int).toNat).length + 1 = 3 :=
  (delete_at_spec _ 1).2 (by decide) (by decide)

/-- C10: on the concrete three-record collection, the total is 180, the
count is 3, the per-category table is Food (sum 150, count 2, mean 75)
before Transport (sum 30, count 1, mean 30) in descending-sum order, and
the monthly sum for 2024-01 is 180. -/
theorem example_aggregation :
    total exampleCollection = 180 ∧
    count exampleCollection = 3 ∧
    group_by_category exampleCollection =
      [{ category := "Food", sum := 150, size := 2, avg := 75 },
       { category := "Transport", sum := 30, size := 1, avg := 30 }] ∧
    group_by_month exampleCollection = [("2024-01", 180)] := by
  refine ⟨by decide, by decide, ?_, by decide⟩
  norm_num [group_by_category, exampleCollection, dedupFirst, dedupAux, sortBy, insertSorted,
    strLe, charsLe, List.filter,
    show decide ("Food" = "Transport") = false from rfl,
    show decide ("Transport" = "Food") = false from rfl,
    show decide ("Food" = "Food") = true from rfl,
    show decide ("Transport" = "Transport") = true from rfl]

end ExpenseTracker
